import Mathlib

/-!
# Verification of the `secs` entity-component store

Shallow embedding of the core of the `secs` repository (`src/entities/mod.rs`,
`src/entities/query.rs`, `src/entities/auto_query.rs`, `src/entities/query_entity.rs`).

Modelling conventions:
* Rust `TypeId` values are abstract `Nat` identifiers; type-erased component
  values (`Rc<RefCell<dyn Any>>`) are `Nat` payloads.
* `HashMap` is an association list with replace-on-insert semantics; the only
  facts of `HashMap` the source relies on are key lookup, replace-insert,
  `remove_entry`, `len`, and per-value iteration, all order-irrelevant here.
* `u128` bitmask arithmetic is `Nat` with the width tracked explicitly:
  `2_u128.pow n` overflows (and aborts under the overflow checks the crate's
  test profile uses) exactly when `n ≥ 128`, modelled by `Option.none`.
* Rust `Result` errors are an explicit error value returned next to the
  (possibly partially mutated) state, since `&mut self` methods that return
  `Err` keep the mutations made before the error point.  Panics (`unwrap`,
  out-of-bounds indexing, arithmetic overflow) are modelled by the
  distinguished error `panicStop` with the state as mutated so far.
-/

namespace Secs

/-- First value bound to key `k` (models `HashMap::get`). -/
def alFind {α : Type} (l : List (Nat × α)) (k : Nat) : Option α :=
  match l with
  | [] => none
  | (k', v) :: rest => if k' = k then some v else alFind rest k

/-- Insert-or-replace (models `HashMap::insert`): an existing binding of `k`
is replaced in place, otherwise the binding is appended. -/
def alInsert {α : Type} (l : List (Nat × α)) (k : Nat) (v : α) : List (Nat × α) :=
  match l with
  | [] => [(k, v)]
  | (k', v') :: rest => if k' = k then (k', v) :: rest else (k', v') :: alInsert rest k v

/-- Remove the binding of `k` (models `HashMap::remove_entry`). -/
def alRemove {α : Type} (l : List (Nat × α)) (k : Nat) : List (Nat × α) :=
  match l with
  | [] => []
  | (k', v') :: rest => if k' = k then rest else (k', v') :: alRemove rest k

/-- Error type collecting `ComponentError` / `QueryError` of the source plus
the `panicStop` marker for panics (aborts) of the unchecked paths. -/
inductive EcsError where
  | nonexistentEntity
  | autoRegistrationError
  | unregisteredComponent
  | indexOutOfBounds
  | nonexistentComponentData
  | panicStop
  deriving DecidableEq, Repr

/--
The `Entities` struct of `src/entities/mod.rs`:
```rust
pub struct Entities {
    components: HashMap<TypeId, Vec<Option<ComponentType>>>,
    entity_count: usize,
    bit_masks: HashMap<TypeId, u128>,
    map: Vec<u128>,
    insert_cursor: usize,
}
```
-/
structure Entities where
  components : List (Nat × List (Option Nat))
  entity_count : Nat
  bit_masks : List (Nat × Nat)
  map : List Nat
  insert_cursor : Nat
  deriving DecidableEq, Repr

/-- `Entities::default()`: all fields empty / zero. -/
def Entities.default : Entities :=
  { components := [], entity_count := 0, bit_masks := [], map := [], insert_cursor := 0 }

/--
`Entities::register_component::<T>()`:
```rust
let typeid = TypeId::of::<T>();
let bitmask = 2_u128.pow(self.components.len() as u32);
self.components.insert(typeid, Vec::new());
self.bit_masks.insert(typeid, bitmask);
```
`2_u128.pow` overflows the 128-bit width when `components.len() ≥ 128`; the
crate's test profile compiles with overflow checks, so the call aborts before
mutating anything — modelled as `none`.  Note that `HashMap::insert` replaces
an existing binding, so re-registering a type replaces its column with an
empty vector and rebinds its mask.
-/
def Entities.register_component (e : Entities) (t : Nat) : Option Entities :=
  let len := e.components.length
  if len < 128 then
    some { e with
      components := alInsert e.components t [],
      bit_masks := alInsert e.bit_masks t (2 ^ len) }
  else
    none

/--
`Entities::fill_new_component_checked::<T>()`: pushes `entity_count` copies of
`None` onto `T`'s column, failing with `AutomaticRegistrationError` if the
column is absent.
-/
def Entities.fill_new_component_checked (e : Entities) (t : Nat) :
    Entities × Option EcsError :=
  match alFind e.components t with
  | none => (e, some .autoRegistrationError)
  | some comps =>
      ({ e with components :=
          alInsert e.components t (comps ++ List.replicate e.entity_count none) },
       none)

/-- The scan `self.map.iter().enumerate().find(|(_, v)| **v == 0)` of
`create_entity`: index of the first zero bitmask. -/
def firstZeroIdx : List Nat → Option Nat
  | [] => none
  | m :: rest => if m = 0 then some 0 else (firstZeroIdx rest).map (· + 1)

/--
`Entities::create_entity()`: reuse the first slot whose bitmask is zero by
pointing `insert_cursor` at it; otherwise push `None` onto every column, push
a zero bitmask, bump `entity_count` and point the cursor at the new last slot.
-/
def Entities.create_entity (e : Entities) : Entities :=
  match firstZeroIdx e.map with
  | some index => { e with insert_cursor := index }
  | none =>
      { e with
        components := e.components.map (fun p => (p.1, p.2 ++ [none])),
        map := e.map ++ [0],
        entity_count := e.entity_count + 1,
        insert_cursor := e.entity_count + 1 - 1 }

/--
Shared tail of `insert_checked` / `insert_component_into_entity_by_id_checked`:
auto-register `T` when its bitmask is unknown (registration overflow aborts,
modelled as `panicStop` with the state unchanged since the `pow` is computed
before any mutation).
-/
def Entities.autoRegister (e : Entities) (t : Nat) : Entities × Option EcsError :=
  if (alFind e.bit_masks t).isSome then (e, none)
  else
    match e.register_component t with
    | none => (e, some .panicStop)
    | some e1 => e1.fill_new_component_checked t

/--
`Entities::insert_checked::<T>(data)`: auto-register, then write `Some(data)`
into `T`'s column at `insert_cursor` (`NonexistentEntity` if the cursor is out
of the column's range) and OR `T`'s bitmask into `map[insert_cursor]`.  The
final `self.bit_masks.get(&typeid).unwrap()` and the `self.map[map_index]`
indexing panic on failure, modelled as `panicStop` after the cell write that
precedes them in the source.
-/
def Entities.insert_checked (e : Entities) (t v : Nat) : Entities × Option EcsError :=
  match e.autoRegister t with
  | (e1, some err) => (e1, some err)
  | (e1, none) =>
      let map_index := e1.insert_cursor
      match alFind e1.components t with
      | none => (e1, some .unregisteredComponent)
      | some comps =>
          match comps[map_index]? with
          | none => (e1, some .nonexistentEntity)
          | some _ =>
              let e2 := { e1 with
                components := alInsert e1.components t (comps.set map_index (some v)) }
              match alFind e2.bit_masks t with
              | none => (e2, some .panicStop)
              | some bitmask =>
                  match e2.map[map_index]? with
                  | none => (e2, some .panicStop)
                  | some cur =>
                      ({ e2 with map := e2.map.set map_index (cur ||| bitmask) }, none)

/--
`Entities::insert_component_into_entity_by_id_checked::<T>(data, map_index)`:
identical to `insert_checked` except the slot index is the argument and the
bitmask lookup reports `UnregisteredComponentError` via `ok_or` instead of
panicking.
-/
def Entities.insert_component_into_entity_by_id_checked (e : Entities)
    (t v map_index : Nat) : Entities × Option EcsError :=
  match e.autoRegister t with
  | (e1, some err) => (e1, some err)
  | (e1, none) =>
      match alFind e1.components t with
      | none => (e1, some .unregisteredComponent)
      | some comps =>
          match comps[map_index]? with
          | none => (e1, some .nonexistentEntity)
          | some _ =>
              let e2 := { e1 with
                components := alInsert e1.components t (comps.set map_index (some v)) }
              match alFind e2.bit_masks t with
              | none => (e2, some .unregisteredComponent)
              | some bitmask =>
                  match e2.map[map_index]? with
                  | none => (e2, some .panicStop)
                  | some cur =>
                      ({ e2 with map := e2.map.set map_index (cur ||| bitmask) }, none)

/--
`Entities::delete_component_by_entity_id_checked::<T>(index)`:
```rust
let mask = self.bit_masks.get(&typeid).ok_or(UnregisteredComponentError)?;
if self.map[index] & *mask != 0 {
    self.map[index] ^= *mask;
}
```
The raw `self.map[index]` indexing panics when `index` is out of range.
-/
def Entities.delete_component_by_entity_id_checked (e : Entities) (t index : Nat) :
    Entities × Option EcsError :=
  match alFind e.bit_masks t with
  | none => (e, some .unregisteredComponent)
  | some mask =>
      match e.map[index]? with
      | none => (e, some .panicStop)
      | some cur =>
          if cur &&& mask ≠ 0 then
            ({ e with map := e.map.set index (cur ^^^ mask) }, none)
          else
            (e, none)

/--
`Entities::delete_component_checked::<T>()`:
```rust
let (_, bitmask) = self.bit_masks.remove_entry(&typeid).ok_or(...)?;
for component_bitmask in &mut self.map {
    *component_bitmask ^= bitmask;
}
```
The bitmask entry is removed and the mask is XORed into every slot's bitmask;
the `components` column is not touched.
-/
def Entities.delete_component_checked (e : Entities) (t : Nat) :
    Entities × Option EcsError :=
  match alFind e.bit_masks t with
  | none => (e, some .unregisteredComponent)
  | some bitmask =>
      ({ e with
          bit_masks := alRemove e.bit_masks t,
          map := e.map.map (fun m => m ^^^ bitmask) }, none)

/-- `Entities::delete_entity_by_id(index)`: zero the slot's bitmask,
`IndexOutOfBoundsError` when the slot does not exist. -/
def Entities.delete_entity_by_id (e : Entities) (index : Nat) :
    Entities × Option EcsError :=
  match e.map[index]? with
  | none => (e, some .indexOutOfBounds)
  | some _ => ({ e with map := e.map.set index 0 }, none)

/-- `Entities::get_bitmask(typeid)`. -/
def Entities.get_bitmask (e : Entities) (t : Nat) : Option Nat :=
  alFind e.bit_masks t

/--
The `Query` struct of `src/entities/query.rs` (we do not carry the `entities`
reference; every operation takes the store explicitly).  `qmap` is the `map`
field of the source.
-/
structure Query where
  qmap : Nat
  type_ids : List Nat
  deriving DecidableEq, Repr

/-- `Query::new`. -/
def Query.new : Query := { qmap := 0, type_ids := [] }

/-- `Query::with_component_checked::<T>()`: OR the type's registered bitmask
into the query's mask and record the type id; error when unregistered. -/
def Query.with_component_checked (e : Entities) (q : Query) (t : Nat) :
    Except EcsError Query :=
  match e.get_bitmask t with
  | some bitmask => .ok { qmap := q.qmap ||| bitmask, type_ids := q.type_ids ++ [t] }
  | none => .error .unregisteredComponent

/-- Add the listed types to a query in order with `with_component_checked`,
stopping at the first error (the `?` chain a caller writes). -/
def buildQueryAux (e : Entities) (q : Query) : List Nat → Except EcsError Query
  | [] => .ok q
  | t :: rest =>
      match Query.with_component_checked e q t with
      | .ok q' => buildQueryAux e q' rest
      | .error err => .error err

/-- Build a query by adding the listed types in order with
`with_component_checked`, starting from `Query::new`. -/
def buildQuery (e : Entities) (ts : List Nat) : Except EcsError Query :=
  buildQueryAux e Query.new ts

/-- The index scan shared by `run`, `run_entity` and `read_indexes_to_buf`:
ascending entity-slot indexes whose bitmask AND the query mask equals the
query mask. -/
def matchingIndexes (e : Entities) (qmap : Nat) : List Nat :=
  (List.range e.map.length).filter (fun i => e.map.getD i 0 &&& qmap == qmap)

/-- The inner loop of `Query::run` for one type's column: clone the cell of
each matching index (the raw `components[*index]` indexing panics when out of
range, modelled as `none`). -/
def getCells (comps : List (Option Nat)) : List Nat → Option (List (Option Nat))
  | [] => some []
  | index :: rest =>
      match comps[index]? with
      | none => none
      | some c => (getCells comps rest).map (c :: ·)

/-- The outer loop of `Query::run`: for each recorded type id in order, fetch
its column (`components.get(typeid).unwrap()` panics when absent, modelled as
`none`), clone the matching cells and drop the empty ones (the `.flatten()`). -/
def runColumns (e : Entities) (indexes : List Nat) : List Nat → Option (List (List Nat))
  | [] => some []
  | t :: rest =>
      match alFind e.components t with
      | none => none
      | some comps =>
          match getCells comps indexes with
          | none => none
          | some cells => (runColumns e indexes rest).map (cells.reduceOption :: ·)

/--
`Query::run()`: empty output when the accumulated mask is zero; otherwise,
for each recorded type id in order, project the matching slots out of the
type's column, dropping empty cells.
-/
def Query.run (e : Entities) (q : Query) : Option (List (List Nat)) :=
  if q.qmap = 0 then some []
  else runColumns e (matchingIndexes e q.qmap) q.type_ids

/--
`Query::run_entity()`: an *error* (`UnregisteredComponentError`) when the
accumulated mask is zero; otherwise the ascending list of matching slot
indexes, each wrapped as a `QueryEntity` (represented by its `id`).
-/
def Query.run_entity (e : Entities) (q : Query) : Except EcsError (List Nat) :=
  if q.qmap = 0 then .error .unregisteredComponent
  else .ok (matchingIndexes e q.qmap)

/-- `QueryEntity::get_component::<T>()` (`query_entity.rs`): column lookup,
slot bounds check, then the cell, each failure reported separately. -/
def QueryEntity.get_component (e : Entities) (id t : Nat) : Except EcsError Nat :=
  match alFind e.components t with
  | none => .error .unregisteredComponent
  | some comps =>
      match comps[id]? with
      | none => .error .indexOutOfBounds
      | some none => .error .nonexistentComponentData
      | some (some v) => .ok v

/--
The collection loop of `AutoQuery::into_iter` (`auto_query.rs`): walk the
column in ascending slot order, keeping the cell's value when
`entities.map[ind] & selfmap == *selfmap` and the cell is `Some`.  The raw
`self.entities.map[ind]` indexing panics when the column is longer than the
bitmask vector, modelled as `none`.
-/
def autoCollect (m : Nat) : List Nat → List (Option Nat) → Option (List Nat)
  | _, [] => some []
  | [], _ :: _ => none
  | b :: bs, c :: cs =>
      match autoCollect m bs cs with
      | none => none
      | some rest =>
          if b &&& m = m then
            match c with
            | some v => some (v :: rest)
            | none => some rest
          else
            some rest

/--
The full value sequence yielded by iterating `Query::auto::<T>()` to
completion: `into_iter` collects the mask-matching non-empty cells into a
vector in ascending slot order, and `next()` then *pops* from the back, so the
yielded order is the reverse of the collected order.  The `bit_masks.get`
and `components.get` `.unwrap()`s panic when `T` is unregistered, modelled as
`none`.
-/
def AutoQuery.iterate (e : Entities) (t : Nat) : Option (List Nat) :=
  match alFind e.bit_masks t with
  | none => none
  | some selfmap =>
      match alFind e.components t with
      | none => none
      | some all_components =>
          match autoCollect selfmap e.map all_components with
          | none => none
          | some comps => some comps.reverse

/--
The full value sequence yielded by iterating `Query::auto_mut::<T>()` to
completion: `AutoQueryMut::into_iter` only does `components.into_iter().flatten()`
— every non-empty cell of the column, with *no* bitmask filtering — and
`next()` pops from the back.
-/
def AutoQueryMut.iterate (e : Entities) (t : Nat) : Option (List Nat) :=
  match alFind e.components t with
  | none => none
  | some comps => some comps.reduceOption.reverse

/-- The mutation operations of the `Entities` API, for reasoning about
operation sequences. -/
inductive Op where
  | create
  | insert (t v : Nat)
  | insertById (t v index : Nat)
  | deleteById (t index : Nat)
  | deleteType (t : Nat)
  | deleteEntity (index : Nat)
  deriving DecidableEq, Repr

/-- Whether the operation is the global type removal `delete_component_checked`. -/
def Op.isDeleteType : Op → Bool
  | .deleteType _ => true
  | _ => false

/-- Apply one operation, keeping the state an errored operation leaves behind
(mutations made before the error point persist in the source). -/
def stepOp (e : Entities) : Op → Entities
  | .create => e.create_entity
  | .insert t v => (e.insert_checked t v).1
  | .insertById t v i => (e.insert_component_into_entity_by_id_checked t v i).1
  | .deleteById t i => (e.delete_component_by_entity_id_checked t i).1
  | .deleteType t => (e.delete_component_checked t).1
  | .deleteEntity i => (e.delete_entity_by_id i).1

/-- Run a sequence of operations from the default (empty) store. -/
def runOps (ops : List Op) : Entities :=
  ops.foldl stepOp Entities.default

/-- Register the listed type ids in order (`none` as soon as one registration
aborts on mask-width overflow). -/
def registerAll (e : Entities) : List Nat → Option Entities
  | [] => some e
  | t :: rest => (e.register_component t).bind (fun e1 => registerAll e1 rest)

/-- Reference selection used to compare the query engine with the auto query:
walk bitmask vector and column in lockstep, in ascending slot order, keeping
the value of every non-empty cell whose slot matches the mask. -/
def pairSelect (m : Nat) : List Nat → List (Option Nat) → List Nat
  | b :: bs, c :: cs =>
      if b &&& m = m then
        match c with
        | some v => v :: pairSelect m bs cs
        | none => pairSelect m bs cs
      else pairSelect m bs cs
  | _, _ => []

/-- Two entities, both carrying type `0` (values 100, 50) and type `1`
(values 7, 8) — the shape of the repository's `init_entities` test fixture. -/
def entsTwo : Entities :=
  runOps [.create, .insert 0 100, .insert 1 7, .create, .insert 0 50, .insert 1 8]

/-- `entsTwo` after `delete_component_by_entity_id_checked::<T0>(0)`: slot 0's
type-0 bit is cleared but its cell still holds the stale value 100. -/
def entsTwoDel : Entities :=
  (entsTwo.delete_component_by_entity_id_checked 0 0).1

/-- One entity carrying type 0 only, a second carrying type 1 only. -/
def entsSplit : Entities :=
  runOps [.create, .insert 0 9, .create, .insert 1 5]

/-- One entity carrying type 0 (value 5). -/
def entsOne : Entities :=
  runOps [.create, .insert 0 5]

/-- `entsOne` after `delete_component_by_entity_id_checked::<T0>(0)`. -/
def entsOneDel : Entities :=
  (entsOne.delete_component_by_entity_id_checked 0 0).1

/-- Two slots whose bitmasks are both zero (both entities deleted). -/
def entsTwoFreed : Entities :=
  runOps [.create, .insert 0 1, .create, .insert 0 2, .deleteEntity 0, .deleteEntity 1]

/--
Invariant of every store reachable by `create_entity` / insert / per-entity
delete / entity delete from the default store (global type deletion excluded):
lengths line up, registered masks are distinct powers of two indexing live
columns, every set bit of an entity bitmask belongs to a registered mask, and
a set bit implies the corresponding column cell is occupied.
-/
structure StoreInv (e : Entities) : Prop where
  len_map : e.map.length = e.entity_count
  len_col : ∀ t col, alFind e.components t = some col → col.length = e.entity_count
  keys_eq : ∀ t, (alFind e.bit_masks t).isSome = (alFind e.components t).isSome
  mask_pow : ∀ t m, alFind e.bit_masks t = some m →
    ∃ k, k < e.components.length ∧ m = 2 ^ k
  mask_inj : ∀ t1 t2 m, alFind e.bit_masks t1 = some m →
    alFind e.bit_masks t2 = some m → t1 = t2
  map_bits : ∀ i, i < e.map.length → ∀ k, (e.map.getD i 0).testBit k = true →
    ∃ t, alFind e.bit_masks t = some (2 ^ k)
  align : ∀ t m col, alFind e.bit_masks t = some m → alFind e.components t = some col →
    ∀ i, i < e.map.length → e.map.getD i 0 &&& m ≠ 0 → (col.getD i none).isSome

/-! ## Association-list lemmas -/

@[simp]
theorem alFind_nil {α : Type} (k : Nat) : alFind ([] : List (Nat × α)) k = none := rfl

@[simp]
theorem alFind_alInsert_self {α : Type} (l : List (Nat × α)) (k : Nat) (v : α) :
    alFind (alInsert l k v) k = some v := by
  induction l with
  | nil => simp [alInsert, alFind]
  | cons p rest ih =>
      obtain ⟨k', v'⟩ := p
      by_cases h : k' = k <;> simp [alInsert, alFind, h, ih]

theorem alFind_alInsert_ne {α : Type} (l : List (Nat × α)) {k k' : Nat} (v : α)
    (h : k' ≠ k) : alFind (alInsert l k v) k' = alFind l k' := by
  have hne : k ≠ k' := Ne.symm h
  induction l with
  | nil => simp [alInsert, alFind, hne]
  | cons p rest ih =>
      obtain ⟨k₀, v₀⟩ := p
      by_cases h0 : k₀ = k
      · subst h0
        simp [alInsert, alFind, hne]
      · simp [alInsert, alFind, h0, ih]

theorem alInsert_length_of_isSome {α : Type} {l : List (Nat × α)} {k : Nat} (v : α)
    (h : (alFind l k).isSome) : (alInsert l k v).length = l.length := by
  induction l with
  | nil => simp [alFind] at h
  | cons p rest ih =>
      obtain ⟨k₀, v₀⟩ := p
      by_cases h0 : k₀ = k
      · simp [alInsert, h0]
      · simp [alFind, h0] at h
        simp [alInsert, h0, ih h]

theorem alInsert_length_of_none {α : Type} {l : List (Nat × α)} {k : Nat} (v : α)
    (h : alFind l k = none) : (alInsert l k v).length = l.length + 1 := by
  induction l with
  | nil => simp [alInsert]
  | cons p rest ih =>
      obtain ⟨k₀, v₀⟩ := p
      by_cases h0 : k₀ = k
      · simp [alFind, h0] at h
      · simp [alFind, h0] at h
        simp [alInsert, h0, ih h]

theorem alFind_mapVal {α β : Type} (l : List (Nat × α)) (f : α → β) (k : Nat) :
    alFind (l.map (fun p => (p.1, f p.2))) k = (alFind l k).map f := by
  induction l with
  | nil => simp
  | cons p rest ih =>
      obtain ⟨k₀, v₀⟩ := p
      by_cases h0 : k₀ = k <;> simp [alFind, h0, ih]

/-! ## Bitmask lemmas -/

theorem testBit_ne_zero {x k : Nat} (h : x.testBit k = true) : x ≠ 0 := by
  intro h0
  subst h0
  simp [Nat.zero_testBit] at h

theorem and_two_pow_ne_zero_iff (x k : Nat) : x &&& 2 ^ k ≠ 0 ↔ x.testBit k = true := by
  constructor
  · intro h
    by_contra hb
    apply h
    apply Nat.eq_of_testBit_eq
    intro i
    by_cases hik : i = k
    · subst hik
      simp [Nat.testBit_land, Nat.zero_testBit, hb]
    · simp [Nat.testBit_land, Nat.zero_testBit, Nat.testBit_two_pow_of_ne (fun h' => hik h'.symm)]
  · intro h
    apply testBit_ne_zero (k := k)
    simp [Nat.testBit_land, h, Nat.testBit_two_pow_self]

theorem and_ne_zero_of_testBit (x m k : Nat) (hx : x.testBit k = true)
    (hm : m.testBit k = true) : x &&& m ≠ 0 := by
  apply testBit_ne_zero (k := k)
  simp [Nat.testBit_land, hx, hm]

theorem land_eq_right_iff (x m : Nat) :
    x &&& m = m ↔ ∀ k, m.testBit k = true → x.testBit k = true := by
  constructor
  · intro h k hk
    have := congrArg (fun y => y.testBit k) h
    simp only [Nat.testBit_land, hk, Bool.and_true] at this
    exact this
  · intro h
    apply Nat.eq_of_testBit_eq
    intro i
    rw [Nat.testBit_land]
    cases hm : m.testBit i with
    | false => simp
    | true => simp [h i hm]

theorem xor_two_pow_testBit_self (x k : Nat) :
    (x ^^^ 2 ^ k).testBit k = !(x.testBit k) := by
  simp [Nat.testBit_xor, Nat.testBit_two_pow_self]

theorem xor_two_pow_testBit_ne (x k j : Nat) (h : j ≠ k) :
    (x ^^^ 2 ^ k).testBit j = x.testBit j := by
  simp [Nat.testBit_xor, Nat.testBit_two_pow_of_ne (fun h' => h h'.symm)]

theorem or_testBit (x y k : Nat) :
    (x ||| y).testBit k = (x.testBit k || y.testBit k) :=
  Nat.testBit_lor x y k

/-! ## `firstZeroIdx` lemmas -/

theorem firstZeroIdx_append_zero (l : List Nat) (h : firstZeroIdx l = none) :
    firstZeroIdx (l ++ [0]) = some l.length := by
  induction l with
  | nil => simp [firstZeroIdx]
  | cons m rest ih =>
      by_cases h0 : m = 0
      · simp [firstZeroIdx, h0] at h
      · simp [firstZeroIdx, h0] at h ⊢
        simp [ih h]

theorem firstZeroIdx_eq_some (l : List Nat) (i : Nat) (hi : i < l.length)
    (hz : l.getD i 0 = 0) (hb : ∀ j, j < i → l.getD j 0 ≠ 0) :
    firstZeroIdx l = some i := by
  induction l generalizing i with
  | nil => simp at hi
  | cons m rest ih =>
      cases i with
      | zero =>
          simp [List.getD] at hz
          simp [firstZeroIdx, hz]
      | succ i' =>
          have hm : m ≠ 0 := by
            have := hb 0 (Nat.succ_pos i')
            simpa [List.getD] using this
          have hz' : rest.getD i' 0 = 0 := by simpa [List.getD] using hz
          have hb' : ∀ j, j < i' → rest.getD j 0 ≠ 0 := by
            intro j hj
            have := hb (j + 1) (Nat.succ_lt_succ hj)
            simpa [List.getD] using this
          have hi' : i' < rest.length := by simpa using hi
          simp [firstZeroIdx, hm, ih i' hi' hz' hb']

/-! ## Query-scan lemmas -/

theorem getCells_spec (comps : List (Option Nat)) (idxs : List Nat)
    (h : ∀ i ∈ idxs, i < comps.length) :
    getCells comps idxs = some (idxs.map (fun i => comps.getD i none)) := by
  induction idxs with
  | nil => simp [getCells]
  | cons i rest ih =>
      have hi : i < comps.length := h i (List.mem_cons_self i rest)
      have hrest : ∀ j ∈ rest, j < comps.length := fun j hj => h j (List.mem_cons_of_mem _ hj)
      simp [getCells, List.getElem?_eq_getElem hi, ih hrest,
        List.getD_eq_getElem?_getD, List.getElem?_eq_getElem hi]

theorem reduceOption_length_of_isSome (l : List (Option Nat)) (h : ∀ x ∈ l, x.isSome) :
    l.reduceOption.length = l.length := by
  induction l with
  | nil => simp
  | cons x rest ih =>
      obtain ⟨a, rfl⟩ := Option.isSome_iff_exists.mp (h x (List.mem_cons_self _ _))
      simp [List.reduceOption_cons_of_some, ih (fun y hy => h y (List.mem_cons_of_mem _ hy))]

theorem getD_set_self (l : List Nat) (i a d : Nat) (h : i < l.length) :
    (l.set i a).getD i d = a := by
  simp [List.getD_eq_getElem?_getD, List.getElem?_set_self h]

theorem getD_set_self_opt (l : List (Option Nat)) (i : Nat) (a d : Option Nat)
    (h : i < l.length) : (l.set i a).getD i d = a := by
  simp [List.getD_eq_getElem?_getD, List.getElem?_set_self h]

theorem getD_set_ne (l : List Nat) {i j : Nat} (a d : Nat) (h : i ≠ j) :
    (l.set i a).getD j d = l.getD j d := by
  simp [List.getD_eq_getElem?_getD, List.getElem?_set_ne h]

theorem getD_set_ne_opt (l : List (Option Nat)) {i j : Nat} (a d : Option Nat)
    (h : i ≠ j) : (l.set i a).getD j d = l.getD j d := by
  simp [List.getD_eq_getElem?_getD, List.getElem?_set_ne h]

theorem mem_matchingIndexes (e : Entities) (m i : Nat) :
    i ∈ matchingIndexes e m ↔ i < e.map.length ∧ e.map.getD i 0 &&& m = m := by
  simp [matchingIndexes, List.mem_filter, List.mem_range]

theorem runColumns_spec (e : Entities) (idxs : List Nat) (ts : List Nat)
    (h : ∀ t ∈ ts, ∃ col, alFind e.components t = some col ∧
          (∀ i ∈ idxs, i < col.length ∧ (col.getD i none).isSome)) :
    ∃ cols, runColumns e idxs ts = some cols ∧ cols.length = ts.length ∧
      ∀ c ∈ cols, c.length = idxs.length := by
  induction ts with
  | nil => exact ⟨[], rfl, rfl, by simp⟩
  | cons t rest ih =>
      obtain ⟨col, hcol, hall⟩ := h t (List.mem_cons_self _ _)
      obtain ⟨cols, hrun, hlen, hc⟩ := ih (fun t' ht' => h t' (List.mem_cons_of_mem _ ht'))
      have hcells := getCells_spec col idxs (fun i hi => (hall i hi).1)
      refine ⟨(idxs.map (fun i => col.getD i none)).reduceOption :: cols, ?_, by simp [hlen], ?_⟩
      · simp [runColumns, hcol, hcells, hrun]
      · intro c hc'
        rcases List.mem_cons.mp hc' with rfl | hmem
        · rw [reduceOption_length_of_isSome]
          · simp
          · intro x hx
            obtain ⟨i, hi, rfl⟩ := List.mem_map.mp hx
            exact (hall i hi).2
        · exact hc c hmem

theorem buildQueryAux_spec (e : Entities) (ts : List Nat) :
    ∀ q : Query, (∀ t ∈ ts, (alFind e.bit_masks t).isSome) →
    ∃ q', buildQueryAux e q ts = .ok q' ∧
      q'.type_ids = q.type_ids ++ ts ∧
      (∀ k, q.qmap.testBit k = true → q'.qmap.testBit k = true) ∧
      (∀ t ∈ ts, ∀ m, alFind e.bit_masks t = some m →
        ∀ k, m.testBit k = true → q'.qmap.testBit k = true) := by
  induction ts with
  | nil =>
      intro q _
      exact ⟨q, rfl, by simp [buildQueryAux], fun k h => h, by simp⟩
  | cons t rest ih =>
      intro q hreg
      obtain ⟨m, hm⟩ := Option.isSome_iff_exists.mp (hreg t (List.mem_cons_self _ _))
      obtain ⟨q', hrun, hids, hmono, hts⟩ :=
        ih ⟨q.qmap ||| m, q.type_ids ++ [t]⟩ (fun t' ht' => hreg t' (List.mem_cons_of_mem _ ht'))
      refine ⟨q', ?_, ?_, ?_, ?_⟩
      · simpa [buildQueryAux, Query.with_component_checked, Entities.get_bitmask, hm] using hrun
      · simpa using hids
      · intro k hk
        exact hmono k (by simp [or_testBit, hk])
      · intro t' ht' m' hm' k hk
        rcases List.mem_cons.mp ht' with rfl | hmem
        · rw [hm'] at hm
          cases hm
          exact hmono k (by simp [or_testBit, hk])
        · exact hts t' hmem m' hm' k hk

theorem autoCollect_eq_pairSelect (m : Nat) : ∀ (bs : List Nat) (cs : List (Option Nat)),
    cs.length ≤ bs.length → autoCollect m bs cs = some (pairSelect m bs cs) := by
  intro bs
  induction bs with
  | nil =>
      intro cs h
      cases cs with
      | nil => simp [autoCollect, pairSelect]
      | cons c cs => simp at h
  | cons b bs ih =>
      intro cs h
      cases cs with
      | nil => simp [autoCollect, pairSelect]
      | cons c cs =>
          have h' : cs.length ≤ bs.length := by simpa using h
          by_cases hb : b &&& m = m
          · cases c with
            | some v => simp [autoCollect, pairSelect, ih cs h', hb]
            | none => simp [autoCollect, pairSelect, ih cs h', hb]
          · simp [autoCollect, pairSelect, ih cs h', hb]

theorem matching_column_eq_pairSelect (m : Nat) : ∀ (bs : List Nat) (cs : List (Option Nat)),
    cs.length = bs.length →
    (((List.range bs.length).filter (fun i => bs.getD i 0 &&& m == m)).map
        (fun i => cs.getD i none)).reduceOption = pairSelect m bs cs := by
  intro bs
  induction bs with
  | nil =>
      intro cs h
      cases cs with
      | nil => simp [pairSelect]
      | cons c cs => simp at h
  | cons b bs ih =>
      intro cs h
      cases cs with
      | nil => simp at h
      | cons c cs =>
          have h' : cs.length = bs.length := by simpa using h
          have hrange : List.range (b :: bs).length = 0 :: (List.range bs.length).map Nat.succ := by
            simp [List.range_succ_eq_map]
          have hpe : ((fun i => (b :: bs)[i]?.getD 0 &&& m == m) ∘ Nat.succ)
              = fun i => bs[i]?.getD 0 &&& m == m := by
            funext j
            simp
          have hge : ((fun i => (c :: cs)[i]?.getD none) ∘ Nat.succ)
              = fun i => cs[i]?.getD none := by
            funext j
            simp
          rw [hrange]
          by_cases hb : b &&& m = m
          · cases c with
            | some v =>
                simp [List.filter_cons, hb, List.filter_map, hpe, hge, List.map_map,
                  List.reduceOption_cons_of_some, pairSelect]
                simpa using ih cs h'
            | none =>
                simp [List.filter_cons, hb, List.filter_map, hpe, hge, List.map_map,
                  List.reduceOption_cons_of_none, pairSelect]
                simpa using ih cs h'
          · simp [List.filter_cons, hb, List.filter_map, hpe, hge, List.map_map,
              pairSelect]
            simpa using ih cs h'

/-! ## Claim theorems -/

/-- C7, counterexample: on the default store, a query to which zero component
types were added makes `Query::run` return an empty collection, but
`Query::run_entity` returns `UnregisteredComponentError` — refuting the claim
that neither output shape signals an error. -/
theorem c7_empty_query_cex :
    Query.run Entities.default Query.new = some [] ∧
    Query.run_entity Entities.default Query.new = .error .unregisteredComponent :=
  ⟨rfl, rfl⟩

/-- C7, amended: for every store, executing a query with zero added component
types yields the empty column collection from `Query::run` without error,
while `Query::run_entity` signals `UnregisteredComponentError` instead of
returning an empty entity-view list. -/
theorem c7_empty_query (e : Entities) :
    buildQuery e [] = .ok Query.new ∧
    Query.run e Query.new = some [] ∧
    Query.run_entity e Query.new = .error .unregisteredComponent :=
  ⟨rfl, rfl, rfl⟩

/-- C7, witness: the amended statement evaluated on the two-entity fixture. -/
theorem c7_empty_query_witness :
    buildQuery entsTwo [] = .ok Query.new ∧
    Query.run entsTwo Query.new = some [] ∧
    Query.run_entity entsTwo Query.new = .error .unregisteredComponent :=
  c7_empty_query entsTwo

/-- C3, code bug: `delete_component_checked::<T0>` on a store where slot 0
carries T0 (mask 1) and slot 1 carries only T1 (mask 2).  The call succeeds
and unbinds T0's mask, but T0's column survives in `components`, and slot 1's
bitmask *gains* T0's bit (the XOR toggles `2` into `3`) instead of having it
cleared — contradicting the claimed drop-the-column / clear-everywhere
behaviour. -/
theorem c3_delete_component_global :
    entsSplit.map = [1, 2] ∧
    (entsSplit.delete_component_checked 0).2 = none ∧
    (entsSplit.delete_component_checked 0).1.map = [0, 3] ∧
    alFind (entsSplit.delete_component_checked 0).1.components 0 = some [some 9, none] ∧
    alFind (entsSplit.delete_component_checked 0).1.bit_masks 0 = none := by
  decide

/-- C6, code bug: on a store where T0 is registered with mask 1 and carried by
entity 0, calling `register_component::<T0>` again is neither a failure nor a
no-op: it succeeds, rebinds T0's mask to `2 = 2^(components.len())` and
replaces T0's column with an empty vector, while the entity's bitmask still
has the old bit 1 set — exactly the desynchronisation the claim rules out. -/
theorem c6_reregistration :
    alFind entsOne.bit_masks 0 = some 1 ∧
    alFind entsOne.components 0 = some [some 5] ∧
    entsOne.map = [1] ∧
    entsOne.register_component 0 =
      some { entsOne with components := [(0, [])], bit_masks := [(0, 2)] } := by
  decide

/-- C2, counterexample: after `create`, `insert T0 5`,
`delete_component_by_entity_id_checked::<T0>(0)`, T0 is still registered with
mask 1, slot 0's bitmask is `0` (bit clear) while slot 0's cell in T0's
column still holds `Some 5` — refuting the claimed iff between mask bits and
column occupancy. -/
theorem c2_mask_column_cex :
    (entsOne.delete_component_by_entity_id_checked 0 0).2 = none ∧
    alFind entsOneDel.bit_masks 0 = some 1 ∧
    entsOneDel.map = [0] ∧
    alFind entsOneDel.components 0 = some [some 5] ∧
    ¬((entsOneDel.map.getD 0 0 &&& 1 ≠ 0) ↔
        (((alFind entsOneDel.components 0).getD []).getD 0 none).isSome = true) := by
  decide

/-- C8, counterexample: with slots 0 and 1 both zero-masked,
`delete_entity_by_id(1)` succeeds on slot 1, yet the next `create_entity`
points the insertion cursor at slot 0 (the *first* zero-mask slot), not slot
1 — refuting "the next create_entity() call reuses slot i". -/
theorem c8_slot_reuse_cex :
    entsTwoFreed.map = [0, 0] ∧
    (entsTwoFreed.delete_entity_by_id 1).2 = none ∧
    (entsTwoFreed.delete_entity_by_id 1).1.create_entity.insert_cursor = 0 ∧
    (entsTwoFreed.delete_entity_by_id 1).1.create_entity.map = [0, 0] ∧
    (0 : Nat) ≠ 1 := by
  decide

/-- C4, counterexample: on the two-entity fixture the general query for type
0 yields the column `[100, 50]` in ascending slot order, while the auto-query
iterator yields `[50, 100]` (its `next()` pops from the back of the collected
vector); and after deleting T0 from slot 0 the mutable auto query still
yields the stale value 100 that the general query result no longer contains —
refuting the claimed same-set same-order equivalence. -/
theorem c4_auto_query_cex :
    buildQuery entsTwo [0] = .ok ⟨1, [0]⟩ ∧
    Query.run entsTwo ⟨1, [0]⟩ = some [[100, 50]] ∧
    AutoQuery.iterate entsTwo 0 = some [50, 100] ∧
    ([50, 100] : List Nat) ≠ [100, 50] ∧
    buildQuery entsTwoDel [0] = .ok ⟨1, [0]⟩ ∧
    Query.run entsTwoDel ⟨1, [0]⟩ = some [[50]] ∧
    AutoQueryMut.iterate entsTwoDel 0 = some [50, 100] :=
  ⟨rfl, by decide, by decide, by decide, rfl, by decide, by decide⟩

/-- C4, amended: for a registered type with a nonzero mask and a column as
long as the bitmask vector, the auto query yields exactly the *reverse* of
the general single-type query's column (same value set, descending slot
order), and the mutable auto query yields the reverse of *all* non-empty
cells of the column, ignoring the bitmask — it coincides with the general
query only when cell occupancy agrees with the mask bits. -/
theorem c4_auto_query_amended (e : Entities) (t : Nat)
    (hms : (alFind e.bit_masks t).isSome)
    (hm0 : (alFind e.bit_masks t).getD 0 ≠ 0)
    (hcs : (alFind e.components t).isSome)
    (hlen : ((alFind e.components t).getD []).length = e.map.length) :
    ∃ q vals, buildQuery e [t] = .ok q ∧ q.qmap ≠ 0 ∧
      Query.run e q = some [vals] ∧
      AutoQuery.iterate e t = some vals.reverse ∧
      AutoQueryMut.iterate e t =
        some ((alFind e.components t).getD []).reduceOption.reverse := by
  obtain ⟨m, hm⟩ := Option.isSome_iff_exists.mp hms
  obtain ⟨col, hcol⟩ := Option.isSome_iff_exists.mp hcs
  have hm0' : m ≠ 0 := by simpa [hm] using hm0
  have hlen' : col.length = e.map.length := by simpa [hcol] using hlen
  have hzor : (0 : Nat) ||| m = m := Nat.zero_or m
  have hq : buildQuery e [t] = .ok ⟨0 ||| m, [t]⟩ := by
    simp [buildQuery, buildQueryAux, Query.with_component_checked, Entities.get_bitmask,
      hm, Query.new]
  have hqm : (⟨0 ||| m, [t]⟩ : Query).qmap ≠ 0 := by simpa [hzor] using hm0'
  refine ⟨⟨0 ||| m, [t]⟩, pairSelect m e.map col, hq, hqm, ?_, ?_, ?_⟩
  · have hidx : ∀ i ∈ matchingIndexes e m, i < col.length := by
      intro i hi
      rw [hlen']
      exact ((mem_matchingIndexes e m i).mp hi).1
    have hcells := getCells_spec col (matchingIndexes e m) hidx
    have hcol' := matching_column_eq_pairSelect m e.map col hlen'
    rw [Query.run, if_neg hqm]
    show runColumns e (matchingIndexes e (0 ||| m)) [t] = _
    rw [hzor]
    simp only [runColumns, hcol, hcells]
    show some [((matchingIndexes e m).map (fun i => col.getD i none)).reduceOption] = _
    rw [show matchingIndexes e m
        = (List.range e.map.length).filter (fun i => e.map.getD i 0 &&& m == m) from rfl,
      hcol']
  · simp only [AutoQuery.iterate, hm, hcol,
      autoCollect_eq_pairSelect m e.map col (le_of_eq hlen')]
  · simp [AutoQueryMut.iterate, hcol]

/-- C4, witness: the amended statement evaluated on the two-entity fixture for
type 0. -/
theorem c4_auto_query_witness :
    ((alFind entsTwo.bit_masks 0).isSome ∧ (alFind entsTwo.bit_masks 0).getD 0 ≠ 0 ∧
     (alFind entsTwo.components 0).isSome ∧
     ((alFind entsTwo.components 0).getD []).length = entsTwo.map.length) ∧
    (∃ q vals, buildQuery entsTwo [0] = .ok q ∧ q.qmap ≠ 0 ∧
      Query.run entsTwo q = some [vals] ∧
      AutoQuery.iterate entsTwo 0 = some vals.reverse ∧
      AutoQueryMut.iterate entsTwo 0 =
        some ((alFind entsTwo.components 0).getD []).reduceOption.reverse) :=
  ⟨by decide, c4_auto_query_amended entsTwo 0 (by decide) (by decide) (by decide) (by decide)⟩

/-- C10, confirmed: on any store whose bitmask vector length matches
`entity_count` (true of every reachable store), two consecutive
`create_entity()` calls with no insertion in between produce the *same* state
as one call — the second call finds the first call's still-zero bitmask and
reuses its slot — so the entity count grows by at most one and subsequent
inserts target the first call's slot. -/
theorem c10_double_create (e : Entities) (h : e.map.length = e.entity_count) :
    e.create_entity.create_entity = e.create_entity ∧
    e.create_entity.entity_count ≤ e.entity_count + 1 := by
  constructor
  · cases hf : firstZeroIdx e.map with
    | some idx =>
        simp [Entities.create_entity, hf]
    | none =>
        have h2 : firstZeroIdx (e.map ++ [0]) = some e.map.length :=
          firstZeroIdx_append_zero e.map hf
        simp [Entities.create_entity, hf, h2, h]
  · cases hf : firstZeroIdx e.map with
    | some idx => simp [Entities.create_entity, hf]
    | none => simp [Entities.create_entity, hf]

/-- C10, witness: the theorem applied to the two-entity fixture. -/
theorem c10_double_create_witness :
    entsTwo.map.length = entsTwo.entity_count ∧
    (entsTwo.create_entity.create_entity = entsTwo.create_entity ∧
     entsTwo.create_entity.entity_count ≤ entsTwo.entity_count + 1) :=
  ⟨by decide, c10_double_create entsTwo (by decide)⟩

/-- C5, confirmed: deleting a component type from an entity slot twice in
succession leaves the state identical to deleting it once — the guarded XOR
(`if map[index] & mask != 0`) makes the second call a no-op and never flips
the cleared bit back on.  The hypothesis that every registered mask is a
power of two holds for every mask the store ever assigns
(`2^(components.len())`). -/
theorem c5_double_delete (e : Entities) (t index : Nat)
    (hpow : ∀ m, alFind e.bit_masks t = some m → ∃ k, m = 2 ^ k) :
    ((e.delete_component_by_entity_id_checked t index).1.delete_component_by_entity_id_checked
        t index).1 = (e.delete_component_by_entity_id_checked t index).1 := by
  cases hm : alFind e.bit_masks t with
  | none => simp [Entities.delete_component_by_entity_id_checked, hm]
  | some m =>
      obtain ⟨k, rfl⟩ := hpow m hm
      cases hg : e.map[index]? with
      | none => simp [Entities.delete_component_by_entity_id_checked, hm, hg]
      | some cur =>
          by_cases hc : cur &&& 2 ^ k ≠ 0
          · have hlt : index < e.map.length := (List.getElem?_eq_some_iff.mp hg).1
            have hg2 : (e.map.set index (cur ^^^ 2 ^ k))[index]? = some (cur ^^^ 2 ^ k) :=
              List.getElem?_set_self (by simpa using hlt)
            have hzero : (cur ^^^ 2 ^ k) &&& 2 ^ k = 0 := by
              have hbit : cur.testBit k = true := (and_two_pow_ne_zero_iff cur k).mp hc
              apply Nat.eq_of_testBit_eq
              intro i
              by_cases hik : i = k
              · subst hik
                simp [Nat.testBit_land, xor_two_pow_testBit_self, hbit, Nat.zero_testBit]
              · simp [Nat.testBit_land, Nat.zero_testBit,
                  Nat.testBit_two_pow_of_ne (fun h' => hik h'.symm)]
            simp [Entities.delete_component_by_entity_id_checked, hm, hg, hc, hg2, hzero]
          · simp [Entities.delete_component_by_entity_id_checked, hm, hg, hc]

/-- C1, confirmed: for a non-empty set of registered component types (with the
mask/column alignment that holds in every reachable store), an entity slot
appears in `run_entity`'s output and contributes exactly one value to each of
`run`'s columns iff its bitmask ANDed with the accumulated wanted mask equals
the wanted mask — an AND filter over all requested types. -/
theorem c1_query_and_filter (e : Entities) (ts : List Nat)
    (hne : ts ≠ [])
    (hmask : ∀ t ∈ ts, (alFind e.bit_masks t).isSome ∧ (alFind e.bit_masks t).getD 0 ≠ 0)
    (halign : ∀ t ∈ ts, (alFind e.components t).isSome ∧
        ((alFind e.components t).getD []).length = e.map.length ∧
        ∀ i, i < e.map.length →
          e.map.getD i 0 &&& (alFind e.bit_masks t).getD 0 ≠ 0 →
          (((alFind e.components t).getD []).getD i none).isSome) :
    ∃ q, buildQuery e ts = .ok q ∧ q.type_ids = ts ∧ q.qmap ≠ 0 ∧
      Query.run_entity e q = .ok (matchingIndexes e q.qmap) ∧
      (∀ i, i ∈ matchingIndexes e q.qmap ↔
        i < e.map.length ∧ e.map.getD i 0 &&& q.qmap = q.qmap) ∧
      ∃ cols, Query.run e q = some cols ∧ cols.length = ts.length ∧
        ∀ c ∈ cols, c.length = (matchingIndexes e q.qmap).length := by
  obtain ⟨q, hbuild, hids, _, hts⟩ :=
    buildQueryAux_spec e ts Query.new (fun t ht => (hmask t ht).1)
  have hids' : q.type_ids = ts := by simpa [Query.new] using hids
  have hq0 : q.qmap ≠ 0 := by
    obtain ⟨t0, ts', rfl⟩ := List.exists_cons_of_ne_nil hne
    obtain ⟨hm0s, hm00⟩ := hmask t0 (List.mem_cons_self _ _)
    obtain ⟨m0, hm0⟩ := Option.isSome_iff_exists.mp hm0s
    have hm00' : m0 ≠ 0 := by simpa [hm0] using hm00
    obtain ⟨k, hk⟩ := Nat.ne_zero_implies_bit_true hm00'
    exact testBit_ne_zero (hts t0 (List.mem_cons_self _ _) m0 hm0 k hk)
  refine ⟨q, hbuild, hids', hq0, ?_, ?_, ?_⟩
  · simp [Query.run_entity, hq0]
  · intro i
    exact mem_matchingIndexes e q.qmap i
  · have hcols : ∀ t ∈ ts, ∃ col, alFind e.components t = some col ∧
        ∀ i ∈ matchingIndexes e q.qmap, i < col.length ∧ (col.getD i none).isSome := by
      intro t ht
      obtain ⟨hcs, hclen, hcal⟩ := halign t ht
      obtain ⟨col, hcol⟩ := Option.isSome_iff_exists.mp hcs
      obtain ⟨hms, _⟩ := hmask t ht
      obtain ⟨m, hm⟩ := Option.isSome_iff_exists.mp hms
      refine ⟨col, hcol, ?_⟩
      intro i hi
      obtain ⟨hilt, hiand⟩ := (mem_matchingIndexes e q.qmap i).mp hi
      have hclen' : col.length = e.map.length := by simpa [hcol] using hclen
      refine ⟨by rw [hclen']; exact hilt, ?_⟩
      have hand : e.map.getD i 0 &&& m ≠ 0 := by
        have hm0 : m ≠ 0 := by
          have := (hmask t ht).2
          simpa [hm] using this
        obtain ⟨k, hk⟩ := Nat.ne_zero_implies_bit_true hm0
        have hkq : q.qmap.testBit k = true := hts t ht m hm k hk
        have hkmap : (e.map.getD i 0).testBit k = true :=
          (land_eq_right_iff _ _).mp hiand k hkq
        exact and_ne_zero_of_testBit _ _ k hkmap hk
      have := hcal i hilt (by simpa [hm] using hand)
      simpa [hcol] using this
    obtain ⟨cols, hrun, hlen, hc⟩ := runColumns_spec e (matchingIndexes e q.qmap) ts hcols
    refine ⟨cols, ?_, hlen, hc⟩
    rw [Query.run, if_neg hq0, hids']
    exact hrun

/-- C1, witness: the AND filter evaluated on the two-entity fixture with the
type set `[0, 1]`. -/
theorem c1_query_and_filter_witness :
    (([0, 1] : List Nat) ≠ []) ∧
    (∃ q, buildQuery entsTwo [0, 1] = .ok q ∧ q.type_ids = [0, 1] ∧ q.qmap ≠ 0 ∧
      Query.run_entity entsTwo q = .ok (matchingIndexes entsTwo q.qmap) ∧
      (∀ i, i ∈ matchingIndexes entsTwo q.qmap ↔
        i < entsTwo.map.length ∧ entsTwo.map.getD i 0 &&& q.qmap = q.qmap) ∧
      ∃ cols, Query.run entsTwo q = some cols ∧ cols.length = ([0, 1] : List Nat).length ∧
        ∀ c ∈ cols, c.length = (matchingIndexes entsTwo q.qmap).length) :=
  ⟨by decide, c1_query_and_filter entsTwo [0, 1] (by decide) (by decide) (by decide)⟩

theorem registerAll_spec : ∀ (ts : List Nat) (e : Entities),
    ts.Nodup → (∀ t ∈ ts, alFind e.components t = none) →
    e.components.length + ts.length ≤ 128 →
    ∃ e', registerAll e ts = some e' ∧
      e'.components.length = e.components.length + ts.length ∧
      (∀ t, t ∉ ts → alFind e'.bit_masks t = alFind e.bit_masks t) ∧
      (∀ k, (hk : k < ts.length) →
        alFind e'.bit_masks ts[k] = some (2 ^ (e.components.length + k))) := by
  intro ts
  induction ts with
  | nil =>
      intro e _ _ _
      refine ⟨e, rfl, by simp, fun t _ => rfl, ?_⟩
      intro k hk
      simp at hk
  | cons t rest ih =>
      intro e hnd hfresh hbound
      have hf : alFind e.components t = none := hfresh t (List.mem_cons_self _ _)
      have hlt : e.components.length < 128 := by
        have := hbound
        simp [List.length_cons] at this
        omega
      have he1 : e.register_component t = some
          { e with components := alInsert e.components t [],
                   bit_masks := alInsert e.bit_masks t (2 ^ e.components.length) } := by
        simp [Entities.register_component, hlt]
      have hnd' : rest.Nodup := hnd.of_cons
      have htmem : t ∉ rest := by
        have := List.nodup_cons.mp hnd
        exact this.1
      have hfresh' : ∀ t' ∈ rest, alFind (alInsert e.components t []) t' = none := by
        intro t' ht'
        have hne : t' ≠ t := fun h => htmem (h ▸ ht')
        rw [alFind_alInsert_ne _ _ hne]
        exact hfresh t' (List.mem_cons_of_mem _ ht')
      have hlen1 : (alInsert e.components t ([] : List (Option Nat))).length
          = e.components.length + 1 := alInsert_length_of_none _ hf
      obtain ⟨e', hrun, hlen', hpres, hmasks⟩ :=
        ih { e with components := alInsert e.components t [],
                    bit_masks := alInsert e.bit_masks t (2 ^ e.components.length) }
          hnd' hfresh' (by simp only [hlen1]; simp [List.length_cons] at hbound; omega)
      refine ⟨e', ?_, ?_, ?_, ?_⟩
      · simp [registerAll, he1, hrun]
      · rw [hlen']
        simp only [hlen1, List.length_cons]
        omega
      · intro t' ht'
        have hne : t' ≠ t := fun h => ht' (h ▸ List.mem_cons_self t rest)
        have hnr : t' ∉ rest := fun h => ht' (List.mem_cons_of_mem _ h)
        rw [hpres t' hnr]
        exact alFind_alInsert_ne _ _ hne
      · intro k hk
        cases k with
        | zero =>
            have : alFind e'.bit_masks t = alFind
                (alInsert e.bit_masks t (2 ^ e.components.length)) t := hpres t htmem
            simp [this]
        | succ k' =>
            have hk' : k' < rest.length := by simpa using hk
            have := hmasks k' hk'
            simp only [hlen1] at this
            have harith : e.components.length + 1 + k' = e.components.length + (k' + 1) := by
              omega
            rw [harith] at this
            simpa using this

theorem registerAll_overflow : ∀ (ts : List Nat) (e : Entities),
    ts.Nodup → (∀ t ∈ ts, alFind e.components t = none) →
    e.components.length ≤ 128 → 128 < e.components.length + ts.length →
    registerAll e ts = none := by
  intro ts
  induction ts with
  | nil =>
      intro e _ _ hle hover
      simp at hover
      omega
  | cons t rest ih =>
      intro e hnd hfresh hle hover
      have hf : alFind e.components t = none := hfresh t (List.mem_cons_self _ _)
      by_cases hlt : e.components.length < 128
      · have he1 : e.register_component t = some
            { e with components := alInsert e.components t [],
                     bit_masks := alInsert e.bit_masks t (2 ^ e.components.length) } := by
          simp [Entities.register_component, hlt]
        have hlen1 : (alInsert e.components t ([] : List (Option Nat))).length
            = e.components.length + 1 := alInsert_length_of_none _ hf
        have htmem : t ∉ rest := (List.nodup_cons.mp hnd).1
        have hfresh' : ∀ t' ∈ rest, alFind (alInsert e.components t []) t' = none := by
          intro t' ht'
          have hne : t' ≠ t := fun h => htmem (h ▸ ht')
          rw [alFind_alInsert_ne _ _ hne]
          exact hfresh t' (List.mem_cons_of_mem _ ht')
        have := ih { e with components := alInsert e.components t [],
                            bit_masks := alInsert e.bit_masks t (2 ^ e.components.length) }
          hnd.of_cons hfresh'
          (by simp only [hlen1]; omega)
          (by simp only [hlen1]; simp [List.length_cons] at hover; omega)
        simp [registerAll, he1, this]
      · have : e.register_component t = none := by
          simp [Entities.register_component, hlt]
        simp [registerAll, this]

/-- C9, confirmed: registering a sequence of distinct, previously unregistered
types from the default store assigns the k-th type the bitmask `2^(k-1)`
(0-indexed: `ts[k] ↦ 2^k`) — a power of two distinct from every earlier
assignment — and a sequence of more than 128 distinct registrations cannot
complete: the 129th mask computation `2_u128.pow(128)` overflows the
128-bit mask width and aborts. -/
theorem c9_registration (ts : List Nat) (hnd : ts.Nodup) :
    (ts.length ≤ 128 →
      ∃ e', registerAll Entities.default ts = some e' ∧
        e'.components.length = ts.length ∧
        ∀ k, (hk : k < ts.length) → alFind e'.bit_masks ts[k] = some (2 ^ k)) ∧
    (128 < ts.length → registerAll Entities.default ts = none) := by
  constructor
  · intro hle
    obtain ⟨e', hrun, hlen, _, hmasks⟩ :=
      registerAll_spec ts Entities.default hnd (by simp [Entities.default])
        (by simpa [Entities.default] using hle)
    refine ⟨e', hrun, by simpa [Entities.default] using hlen, ?_⟩
    intro k hk
    simpa [Entities.default] using hmasks k hk
  · intro hgt
    exact registerAll_overflow ts Entities.default hnd (by simp [Entities.default])
      (by simp [Entities.default]) (by simpa [Entities.default] using hgt)

/-- C8, amended: after `delete_entity_by_id(i)` succeeds, the next
`create_entity()` reuses the *first* zero-bitmask slot — which is slot `i`
whenever every earlier slot still has a nonzero bitmask — without appending,
and after inserting a value of a registered type into the reused slot the
general query sees exactly the column cells now present: the reused slot's
cell is the newly inserted value, not the deleted occupant's. -/
theorem c8_slot_reuse_amended (e : Entities) (i t v : Nat)
    (hi : i < e.map.length)
    (hfirst : ∀ j, j < i → e.map.getD j 0 ≠ 0)
    (hms : (alFind e.bit_masks t).isSome)
    (hm0 : (alFind e.bit_masks t).getD 0 ≠ 0)
    (hcs : (alFind e.components t).isSome)
    (hlen : ((alFind e.components t).getD []).length = e.map.length) :
    (e.delete_entity_by_id i).2 = none ∧
    (e.delete_entity_by_id i).1.create_entity.insert_cursor = i ∧
    (e.delete_entity_by_id i).1.create_entity.map = e.map.set i 0 ∧
    ∃ f col2,
      (e.delete_entity_by_id i).1.create_entity.insert_checked t v = (f, none) ∧
      alFind f.components t = some col2 ∧
      col2.getD i none = some v ∧
      f.map.getD i 0 = (alFind e.bit_masks t).getD 0 ∧
      buildQuery f [t] = .ok ⟨(alFind e.bit_masks t).getD 0, [t]⟩ ∧
      i ∈ matchingIndexes f ((alFind e.bit_masks t).getD 0) ∧
      Query.run f ⟨(alFind e.bit_masks t).getD 0, [t]⟩ =
        some [((matchingIndexes f ((alFind e.bit_masks t).getD 0)).map
          (fun j => col2.getD j none)).reduceOption] := by
  obtain ⟨m, hm⟩ := Option.isSome_iff_exists.mp hms
  obtain ⟨col, hcol⟩ := Option.isSome_iff_exists.mp hcs
  have hm0' : m ≠ 0 := by simpa [hm] using hm0
  have hlen' : col.length = e.map.length := by simpa [hcol] using hlen
  have hdel : e.delete_entity_by_id i = ({ e with map := e.map.set i 0 }, none) := by
    simp [Entities.delete_entity_by_id, List.getElem?_eq_getElem hi]
  have hfz : firstZeroIdx (e.map.set i 0) = some i := by
    apply firstZeroIdx_eq_some _ i (by simpa using hi) (getD_set_self _ _ _ _ hi)
    intro j hj
    rw [getD_set_ne _ _ _ (ne_of_gt hj)]
    exact hfirst j hj
  have hcreate : ({ e with map := e.map.set i 0 } : Entities).create_entity
      = { e with map := e.map.set i 0, insert_cursor := i } := by
    simp [Entities.create_entity, hfz]
  have hicol : i < col.length := by rw [hlen']; exact hi
  have hins : ({ e with map := e.map.set i 0, insert_cursor := i } : Entities).insert_checked t v
      = ({ e with
            map := (e.map.set i 0).set i (0 ||| m),
            insert_cursor := i,
            components := alInsert e.components t (col.set i (some v)) }, none) := by
    simp [Entities.insert_checked, Entities.autoRegister, hms, hcol,
      List.getElem?_eq_getElem hicol, hm,
      @List.getElem?_set_self Nat e.map i 0 hi]
  rw [hdel]
  refine ⟨rfl, ?_, ?_, ?_⟩
  · simp [hcreate]
  · simp [hcreate]
  · refine ⟨_, col.set i (some v), by rw [hcreate]; exact hins, alFind_alInsert_self _ _ _, ?_, ?_, ?_, ?_, ?_⟩
    · exact getD_set_self_opt _ _ _ _ hicol
    · rw [hm]
      show ((e.map.set i 0).set i (0 ||| m)).getD i 0 = m
      rw [getD_set_self _ _ _ _ (by simpa using hi)]
      exact Nat.zero_or m
    · rw [hm]
      simp [buildQuery, buildQueryAux, Query.with_component_checked, Entities.get_bitmask, hm,
        Query.new, Nat.zero_or]
    · rw [hm]
      apply (mem_matchingIndexes _ _ _).mpr
      constructor
      · simpa using hi
      · show ((e.map.set i 0).set i (0 ||| m)).getD i 0 &&& m = m
        rw [getD_set_self _ _ _ _ (by simpa using hi), Nat.zero_or, Nat.and_self]
    · rw [hm]
      simp only [Option.getD_some]
      have hqm : (⟨m, [t]⟩ : Query).qmap ≠ 0 := hm0'
      have hidx : ∀ j ∈ matchingIndexes
          { e with
            map := (e.map.set i 0).set i (0 ||| m),
            insert_cursor := i,
            components := alInsert e.components t (col.set i (some v)) } m,
          j < (col.set i (some v)).length := by
        intro j hj
        have := ((mem_matchingIndexes _ _ _).mp hj).1
        simpa [hlen'] using this
      have hcells := getCells_spec (col.set i (some v)) _ hidx
      rw [Query.run, if_neg hqm]
      simp only [runColumns, alFind_alInsert_self, hcells]
      rfl

/-- C8, witness: the amended statement on the two-entity fixture — delete slot
0, recreate, insert 77; the query sees 77, not the stale 100. -/
theorem c8_slot_reuse_witness :
    (0 < entsTwo.map.length ∧
     (∀ j, j < 0 → entsTwo.map.getD j 0 ≠ 0) ∧
     (alFind entsTwo.bit_masks 0).isSome ∧
     (alFind entsTwo.bit_masks 0).getD 0 ≠ 0 ∧
     (alFind entsTwo.components 0).isSome ∧
     ((alFind entsTwo.components 0).getD []).length = entsTwo.map.length) ∧
    ((entsTwo.delete_entity_by_id 0).2 = none ∧
     (entsTwo.delete_entity_by_id 0).1.create_entity.insert_cursor = 0 ∧
     (entsTwo.delete_entity_by_id 0).1.create_entity.map = entsTwo.map.set 0 0 ∧
     ∃ f col2,
       (entsTwo.delete_entity_by_id 0).1.create_entity.insert_checked 0 77 = (f, none) ∧
       alFind f.components 0 = some col2 ∧
       col2.getD 0 none = some 77 ∧
       f.map.getD 0 0 = (alFind entsTwo.bit_masks 0).getD 0 ∧
       buildQuery f [0] = .ok ⟨(alFind entsTwo.bit_masks 0).getD 0, [0]⟩ ∧
       0 ∈ matchingIndexes f ((alFind entsTwo.bit_masks 0).getD 0) ∧
       Query.run f ⟨(alFind entsTwo.bit_masks 0).getD 0, [0]⟩ =
         some [((matchingIndexes f ((alFind entsTwo.bit_masks 0).getD 0)).map
           (fun j => col2.getD j none)).reduceOption]) :=
  ⟨⟨by decide, by decide, by decide, by decide, by decide, by decide⟩,
   c8_slot_reuse_amended entsTwo 0 0 77 (by decide) (by decide) (by decide) (by decide)
     (by decide) (by decide)⟩

/-- C9, witness: three distinct registrations get masks 1, 2, 4. -/
theorem c9_registration_witness :
    ([3, 4, 5] : List Nat).Nodup ∧
    (∃ e', registerAll Entities.default [3, 4, 5] = some e' ∧
      e'.components.length = ([3, 4, 5] : List Nat).length ∧
      ∀ k, (hk : k < ([3, 4, 5] : List Nat).length) →
        alFind e'.bit_masks ([3, 4, 5] : List Nat)[k] = some (2 ^ k)) :=
  ⟨by decide, (c9_registration [3, 4, 5] (by decide)).1 (by decide)⟩

theorem storeInv_default : StoreInv Entities.default := by
  constructor <;> intros <;> simp_all [Entities.default]

theorem storeInv_create (e : Entities) (h : StoreInv e) : StoreInv e.create_entity := by
  cases hf : firstZeroIdx e.map with
  | some idx =>
      simp only [Entities.create_entity, hf]
      exact ⟨h.len_map, h.len_col, h.keys_eq, h.mask_pow, h.mask_inj, h.map_bits, h.align⟩
  | none =>
      simp only [Entities.create_entity, hf]
      have hfind : ∀ t, alFind (e.components.map (fun p => (p.1, p.2 ++ [none]))) t
          = (alFind e.components t).map (· ++ [none]) := fun t =>
        alFind_mapVal e.components (fun col => col ++ [none]) t
      constructor
      · simp [h.len_map]
      · intro t col hcol
        rw [hfind] at hcol
        cases hc : alFind e.components t with
        | none => rw [hc] at hcol; cases hcol
        | some col0 =>
            rw [hc] at hcol
            obtain rfl : col0 ++ [none] = col := Option.some.inj hcol
            simp [h.len_col t col0 hc]
      · intro t
        rw [hfind]
        simp [h.keys_eq t]
      · intro t m hm
        obtain ⟨k, hk, rfl⟩ := h.mask_pow t m hm
        exact ⟨k, by simpa using hk, rfl⟩
      · exact h.mask_inj
      · intro i hi k hb
        rw [List.length_append, List.length_singleton] at hi
        by_cases hilt : i < e.map.length
        · rw [List.getD_append _ _ _ _ hilt] at hb
          exact h.map_bits i hilt k hb
        · have : i = e.map.length := by omega
          subst this
          rw [List.getD_eq_getElem?_getD, List.getElem?_concat_length] at hb
          simp [Nat.zero_testBit] at hb
      · intro t m col hm hcol i hi hand
        rw [hfind] at hcol
        cases hc : alFind e.components t with
        | none => rw [hc] at hcol; cases hcol
        | some col0 =>
            rw [hc] at hcol
            obtain rfl : col0 ++ [none] = col := Option.some.inj hcol
            rw [List.length_append, List.length_singleton] at hi
            by_cases hilt : i < e.map.length
            · rw [List.getD_append _ _ _ _ hilt] at hand
              have hcl : i < col0.length := by
                rw [h.len_col t col0 hc, ← h.len_map]
                exact hilt
              rw [List.getD_append _ _ _ _ hcl]
              exact h.align t m col0 hm hc i hilt hand
            · have : i = e.map.length := by omega
              subst this
              rw [List.getD_eq_getElem?_getD, List.getElem?_concat_length] at hand
              simp [Nat.zero_and] at hand

theorem storeInv_delete_entity (e : Entities) (i : Nat) (h : StoreInv e) :
    StoreInv (e.delete_entity_by_id i).1 := by
  cases hg : e.map[i]? with
  | none => simp only [Entities.delete_entity_by_id, hg]; exact h
  | some cur =>
      simp only [Entities.delete_entity_by_id, hg]
      have hilt : i < e.map.length := (List.getElem?_eq_some_iff.mp hg).1
      constructor
      · simp [h.len_map]
      · exact h.len_col
      · exact h.keys_eq
      · exact h.mask_pow
      · exact h.mask_inj
      · intro j hj k hb
        rw [List.length_set] at hj
        by_cases hij : i = j
        · subst hij
          rw [getD_set_self _ _ _ _ hilt] at hb
          simp [Nat.zero_testBit] at hb
        · rw [getD_set_ne _ _ _ hij] at hb
          exact h.map_bits j hj k hb
      · intro t m col hm hcol j hj hand
        rw [List.length_set] at hj
        by_cases hij : i = j
        · subst hij
          rw [getD_set_self _ _ _ _ hilt] at hand
          simp [Nat.zero_and] at hand
        · rw [getD_set_ne _ _ _ hij] at hand
          exact h.align t m col hm hcol j hj hand

theorem storeInv_delete_by_id (e : Entities) (t i : Nat) (h : StoreInv e) :
    StoreInv (e.delete_component_by_entity_id_checked t i).1 := by
  cases hm : alFind e.bit_masks t with
  | none => simp only [Entities.delete_component_by_entity_id_checked, hm]; exact h
  | some m =>
      cases hg : e.map[i]? with
      | none => simp only [Entities.delete_component_by_entity_id_checked, hm, hg]; exact h
      | some cur =>
          by_cases hc : cur &&& m ≠ 0
          · simp only [Entities.delete_component_by_entity_id_checked, hm, hg, if_pos hc]
            have hilt : i < e.map.length := (List.getElem?_eq_some_iff.mp hg).1
            have hcur : e.map.getD i 0 = cur := by
              rw [List.getD_eq_getElem?_getD, hg]; rfl
            obtain ⟨k, hklt, rfl⟩ := h.mask_pow t m hm
            have hbit : cur.testBit k = true := (and_two_pow_ne_zero_iff cur k).mp hc
            constructor
            · simp [h.len_map]
            · exact h.len_col
            · exact h.keys_eq
            · exact h.mask_pow
            · exact h.mask_inj
            · intro j hj k' hb
              rw [List.length_set] at hj
              by_cases hij : i = j
              · subst hij
                rw [getD_set_self _ _ _ _ hilt] at hb
                by_cases hkk : k' = k
                · subst hkk
                  rw [xor_two_pow_testBit_self, hbit] at hb
                  simp at hb
                · rw [xor_two_pow_testBit_ne _ _ _ hkk] at hb
                  exact h.map_bits i hilt k' (by rw [hcur]; exact hb)
              · rw [getD_set_ne _ _ _ hij] at hb
                exact h.map_bits j hj k' hb
            · intro t0 m0 col0 hm0 hcol0 j hj hand
              rw [List.length_set] at hj
              by_cases hij : i = j
              · subst hij
                rw [getD_set_self _ _ _ _ hilt] at hand
                obtain ⟨k0, hk0lt, rfl⟩ := h.mask_pow t0 m0 hm0
                rw [and_two_pow_ne_zero_iff] at hand
                by_cases hkk : k0 = k
                · subst hkk
                  rw [xor_two_pow_testBit_self, hbit] at hand
                  simp at hand
                · rw [xor_two_pow_testBit_ne _ _ _ hkk] at hand
                  apply h.align t0 (2 ^ k0) col0 hm0 hcol0 i hilt
                  rw [hcur, and_two_pow_ne_zero_iff]
                  exact hand
              · rw [getD_set_ne _ _ _ hij] at hand
                exact h.align t0 m0 col0 hm0 hcol0 j hj hand
          · simp only [Entities.delete_component_by_entity_id_checked, hm, hg, if_neg hc]
            exact h

theorem autoRegister_of_isSome (e : Entities) (t : Nat)
    (hs : (alFind e.bit_masks t).isSome) : e.autoRegister t = (e, none) := by
  simp [Entities.autoRegister, hs]

theorem autoRegister_fresh (e : Entities) (t : Nat)
    (hs : ¬ (alFind e.bit_masks t).isSome = true) (hlen : e.components.length < 128) :
    e.autoRegister t = ({ e with
      components := alInsert (alInsert e.components t []) t (List.replicate e.entity_count none),
      bit_masks := alInsert e.bit_masks t (2 ^ e.components.length) }, none) := by
  simp [Entities.autoRegister, hs, Entities.register_component, hlen,
    Entities.fill_new_component_checked, alFind_alInsert_self]

theorem autoRegister_overflow (e : Entities) (t : Nat)
    (hs : ¬ (alFind e.bit_masks t).isSome = true) (hlen : ¬ e.components.length < 128) :
    e.autoRegister t = (e, some .panicStop) := by
  simp [Entities.autoRegister, hs, Entities.register_component, hlen]

theorem storeInv_register_state (e : Entities) (t : Nat) (h : StoreInv e)
    (hs : ¬ (alFind e.bit_masks t).isSome = true) (_hlen : e.components.length < 128) :
    StoreInv { e with
      components := alInsert (alInsert e.components t []) t (List.replicate e.entity_count none),
      bit_masks := alInsert e.bit_masks t (2 ^ e.components.length) } := by
  have hbm : alFind e.bit_masks t = none := by
    cases hx : alFind e.bit_masks t with
    | none => rfl
    | some m => rw [hx] at hs; simp at hs
  have hcm : alFind e.components t = none := by
    have hk := h.keys_eq t
    rw [hbm] at hk
    cases hx : alFind e.components t with
    | none => rfl
    | some c => rw [hx] at hk; simp at hk
  have hfind_t : alFind
      (alInsert (alInsert e.components t []) t (List.replicate e.entity_count none)) t
      = some (List.replicate e.entity_count none) := alFind_alInsert_self _ _ _
  have hfind_ne : ∀ t', t' ≠ t → alFind
      (alInsert (alInsert e.components t []) t (List.replicate e.entity_count none)) t'
      = alFind e.components t' := by
    intro t' hne
    rw [alFind_alInsert_ne _ _ hne, alFind_alInsert_ne _ _ hne]
  have hbm_t : alFind (alInsert e.bit_masks t (2 ^ e.components.length)) t
      = some (2 ^ e.components.length) := alFind_alInsert_self _ _ _
  have hbm_ne : ∀ t', t' ≠ t → alFind (alInsert e.bit_masks t (2 ^ e.components.length)) t'
      = alFind e.bit_masks t' := fun t' hne => alFind_alInsert_ne _ _ hne
  have hlen2 : (alInsert (alInsert e.components t []) t
      (List.replicate e.entity_count none)).length = e.components.length + 1 := by
    rw [alInsert_length_of_isSome _ (by simp), alInsert_length_of_none _ hcm]
  constructor
  · exact h.len_map
  · intro t' col hcol
    by_cases ht : t' = t
    · subst ht
      rw [hfind_t] at hcol
      obtain rfl := Option.some.inj hcol
      simp
    · rw [hfind_ne t' ht] at hcol
      exact h.len_col t' col hcol
  · intro t'
    by_cases ht : t' = t
    · subst ht
      rw [hfind_t, hbm_t]
      rfl
    · rw [hfind_ne t' ht, hbm_ne t' ht]
      exact h.keys_eq t'
  · intro t' m hm
    rw [hlen2]
    by_cases ht : t' = t
    · subst ht
      rw [hbm_t] at hm
      obtain rfl := Option.some.inj hm
      exact ⟨e.components.length, by omega, rfl⟩
    · rw [hbm_ne t' ht] at hm
      obtain ⟨k, hk, rfl⟩ := h.mask_pow t' m hm
      exact ⟨k, by omega, rfl⟩
  · intro t1 t2 m h1 h2
    by_cases ht1 : t1 = t <;> by_cases ht2 : t2 = t
    · rw [ht1, ht2]
    · subst ht1
      rw [hbm_t] at h1
      obtain rfl := Option.some.inj h1
      rw [hbm_ne t2 ht2] at h2
      obtain ⟨k, hk, hkk⟩ := h.mask_pow t2 _ h2
      have := Nat.pow_right_injective (le_refl 2) hkk
      omega
    · subst ht2
      rw [hbm_t] at h2
      obtain rfl := Option.some.inj h2
      rw [hbm_ne t1 ht1] at h1
      obtain ⟨k, hk, hkk⟩ := h.mask_pow t1 _ h1
      have := Nat.pow_right_injective (le_refl 2) hkk
      omega
    · rw [hbm_ne t1 ht1] at h1
      rw [hbm_ne t2 ht2] at h2
      exact h.mask_inj t1 t2 m h1 h2
  · intro i hi k hb
    obtain ⟨t0, ht0⟩ := h.map_bits i hi k hb
    have ht0ne : t0 ≠ t := by
      intro hq
      rw [hq, hbm] at ht0
      cases ht0
    exact ⟨t0, by rw [hbm_ne t0 ht0ne]; exact ht0⟩
  · intro t' m col hm hcol i hi hand
    by_cases ht : t' = t
    · subst ht
      rw [hbm_t] at hm
      obtain rfl := Option.some.inj hm
      rw [and_two_pow_ne_zero_iff] at hand
      obtain ⟨t0, ht0⟩ := h.map_bits i hi _ hand
      obtain ⟨k, hk, hkk⟩ := h.mask_pow t0 _ ht0
      have := Nat.pow_right_injective (le_refl 2) hkk
      omega
    · rw [hbm_ne t' ht] at hm
      rw [hfind_ne t' ht] at hcol
      exact h.align t' m col hm hcol i hi hand

theorem storeInv_autoRegister (e : Entities) (t : Nat) (h : StoreInv e) :
    StoreInv (e.autoRegister t).1 := by
  by_cases hs : (alFind e.bit_masks t).isSome
  · rw [autoRegister_of_isSome e t hs]
    exact h
  · by_cases hlen : e.components.length < 128
    · rw [autoRegister_fresh e t hs hlen]
      exact storeInv_register_state e t h hs hlen
    · rw [autoRegister_overflow e t hs hlen]
      exact h

theorem storeInv_insert_core (e1 : Entities) (t v idx : Nat)
    (comps : List (Option Nat)) (m cur : Nat) (h : StoreInv e1)
    (hcomps : alFind e1.components t = some comps)
    (hm : alFind e1.bit_masks t = some m)
    (hcur : e1.map[idx]? = some cur) :
    StoreInv { e1 with
      components := alInsert e1.components t (comps.set idx (some v)),
      map := e1.map.set idx (cur ||| m) } := by
  have hilt : idx < e1.map.length := (List.getElem?_eq_some_iff.mp hcur).1
  have hcur' : e1.map.getD idx 0 = cur := by
    rw [List.getD_eq_getElem?_getD, hcur]
    rfl
  obtain ⟨k, hklt, rfl⟩ := h.mask_pow t m hm
  constructor
  · simp [h.len_map]
  · intro t' col hcol
    by_cases ht : t' = t
    · subst ht
      rw [alFind_alInsert_self] at hcol
      obtain rfl := Option.some.inj hcol
      simp [h.len_col t' comps hcomps]
    · rw [alFind_alInsert_ne _ _ ht] at hcol
      exact h.len_col t' col hcol
  · intro t'
    by_cases ht : t' = t
    · subst ht
      rw [alFind_alInsert_self, hm]
      rfl
    · rw [alFind_alInsert_ne _ _ ht]
      exact h.keys_eq t'
  · intro t' m' hm'
    have := h.mask_pow t' m' hm'
    rwa [alInsert_length_of_isSome _ (by simp [hcomps])]
  · exact h.mask_inj
  · intro i hi k' hb
    rw [List.length_set] at hi
    by_cases hii : idx = i
    · subst hii
      rw [getD_set_self _ _ _ _ hilt, or_testBit] at hb
      cases (Bool.or_eq_true _ _).mp hb with
      | inl hcurbit =>
          exact h.map_bits idx hilt k' (by rw [hcur']; exact hcurbit)
      | inr hmbit =>
          have hkk : k = k' := by simpa [Nat.testBit_two_pow] using hmbit
          exact ⟨t, by rw [hm, hkk]⟩
    · rw [getD_set_ne _ _ _ hii] at hb
      exact h.map_bits i hi k' hb
  · intro t' m' col' hm' hcol' i hi hand
    rw [List.length_set] at hi
    by_cases ht : t' = t
    · subst ht
      rw [hm] at hm'
      obtain rfl := Option.some.inj hm'
      rw [alFind_alInsert_self] at hcol'
      obtain rfl := Option.some.inj hcol'
      by_cases hii : idx = i
      · subst hii
        have hic : idx < comps.length := by
          rw [h.len_col t' comps hcomps, ← h.len_map]
          exact hilt
        rw [getD_set_self_opt _ _ _ _ hic]
        rfl
      · rw [getD_set_ne_opt _ _ _ hii]
        rw [getD_set_ne _ _ _ hii] at hand
        exact h.align t' (2 ^ k) comps hm hcomps i hi hand
    · rw [alFind_alInsert_ne _ _ ht] at hcol'
      by_cases hii : idx = i
      · subst hii
        rw [getD_set_self _ _ _ _ hilt] at hand
        obtain ⟨k0, hk0lt, rfl⟩ := h.mask_pow t' m' hm'
        rw [and_two_pow_ne_zero_iff, or_testBit] at hand
        cases (Bool.or_eq_true _ _).mp hand with
        | inl hcurbit =>
            apply h.align t' (2 ^ k0) col' hm' hcol' idx hilt
            rw [hcur', and_two_pow_ne_zero_iff]
            exact hcurbit
        | inr hmbit =>
            have hkk : k = k0 := by simpa [Nat.testBit_two_pow] using hmbit
            subst hkk
            exact absurd (h.mask_inj t' t _ hm' hm) ht
      · rw [getD_set_ne _ _ _ hii] at hand
        exact h.align t' m' col' hm' hcol' i hi hand

theorem storeInv_insert_checked (e : Entities) (t v : Nat) (h : StoreInv e) :
    StoreInv (e.insert_checked t v).1 := by
  cases har : e.autoRegister t with
  | mk e1 r =>
      have h1 : StoreInv e1 := by
        have := storeInv_autoRegister e t h
        rw [har] at this
        exact this
      cases r with
      | some err =>
          simp only [Entities.insert_checked, har]
          exact h1
      | none =>
          have hbms : (alFind e1.bit_masks t).isSome := by
            by_cases hs : (alFind e.bit_masks t).isSome
            · rw [autoRegister_of_isSome e t hs] at har
              injection har with he hr
              rw [← he]
              exact hs
            · by_cases hlen : e.components.length < 128
              · rw [autoRegister_fresh e t hs hlen] at har
                injection har with he hr
                rw [← he]
                simp
              · rw [autoRegister_overflow e t hs hlen] at har
                injection har with he hr
                simp at hr
          obtain ⟨m, hm⟩ := Option.isSome_iff_exists.mp hbms
          have hcs : (alFind e1.components t).isSome := by
            rw [← h1.keys_eq t]
            exact hbms
          obtain ⟨comps, hcomps⟩ := Option.isSome_iff_exists.mp hcs
          cases hcell : comps[e1.insert_cursor]? with
          | none =>
              simp only [Entities.insert_checked, har, hcomps, hcell]
              exact h1
          | some c =>
              have hcursor : e1.insert_cursor < e1.map.length := by
                have hcc := (List.getElem?_eq_some_iff.mp hcell).1
                rw [h1.len_col t comps hcomps] at hcc
                rw [h1.len_map]
                exact hcc
              have hcur : e1.map[e1.insert_cursor]? = some (e1.map.getD e1.insert_cursor 0) := by
                rw [List.getD_eq_getElem?_getD, List.getElem?_eq_getElem hcursor]
                rfl
              simp only [Entities.insert_checked, har, hcomps, hcell, hm, hcur]
              exact storeInv_insert_core e1 t v e1.insert_cursor comps m _ h1 hcomps hm hcur

theorem storeInv_insert_by_id (e : Entities) (t v idx : Nat) (h : StoreInv e) :
    StoreInv (e.insert_component_into_entity_by_id_checked t v idx).1 := by
  cases har : e.autoRegister t with
  | mk e1 r =>
      have h1 : StoreInv e1 := by
        have := storeInv_autoRegister e t h
        rw [har] at this
        exact this
      cases r with
      | some err =>
          simp only [Entities.insert_component_into_entity_by_id_checked, har]
          exact h1
      | none =>
          have hbms : (alFind e1.bit_masks t).isSome := by
            by_cases hs : (alFind e.bit_masks t).isSome
            · rw [autoRegister_of_isSome e t hs] at har
              injection har with he hr
              rw [← he]
              exact hs
            · by_cases hlen : e.components.length < 128
              · rw [autoRegister_fresh e t hs hlen] at har
                injection har with he hr
                rw [← he]
                simp
              · rw [autoRegister_overflow e t hs hlen] at har
                injection har with he hr
                simp at hr
          obtain ⟨m, hm⟩ := Option.isSome_iff_exists.mp hbms
          have hcs : (alFind e1.components t).isSome := by
            rw [← h1.keys_eq t]
            exact hbms
          obtain ⟨comps, hcomps⟩ := Option.isSome_iff_exists.mp hcs
          cases hcell : comps[idx]? with
          | none =>
              simp only [Entities.insert_component_into_entity_by_id_checked, har, hcomps, hcell]
              exact h1
          | some c =>
              have hcursor : idx < e1.map.length := by
                have hcc := (List.getElem?_eq_some_iff.mp hcell).1
                rw [h1.len_col t comps hcomps] at hcc
                rw [h1.len_map]
                exact hcc
              have hcur : e1.map[idx]? = some (e1.map.getD idx 0) := by
                rw [List.getD_eq_getElem?_getD, List.getElem?_eq_getElem hcursor]
                rfl
              simp only [Entities.insert_component_into_entity_by_id_checked, har, hcomps,
                hcell, hm, hcur]
              exact storeInv_insert_core e1 t v idx comps m _ h1 hcomps hm hcur

theorem storeInv_stepOp (e : Entities) (op : Op) (h : StoreInv e)
    (hop : op.isDeleteType = false) : StoreInv (stepOp e op) := by
  cases op with
  | create => exact storeInv_create e h
  | insert t v => exact storeInv_insert_checked e t v h
  | insertById t v i => exact storeInv_insert_by_id e t v i h
  | deleteById t i => exact storeInv_delete_by_id e t i h
  | deleteType t => simp [Op.isDeleteType] at hop
  | deleteEntity i => exact storeInv_delete_entity e i h

theorem storeInv_runOps (ops : List Op) (hops : ∀ op ∈ ops, op.isDeleteType = false) :
    StoreInv (runOps ops) := by
  suffices haux : ∀ (l : List Op) (e : Entities), StoreInv e →
      (∀ op ∈ l, op.isDeleteType = false) → StoreInv (l.foldl stepOp e) by
    exact haux ops Entities.default storeInv_default hops
  intro l
  induction l with
  | nil =>
      intro e he _
      exact he
  | cons op rest ih =>
      intro e he hl
      exact ih (stepOp e op) (storeInv_stepOp e op he (hl op (List.mem_cons_self _ _)))
        (fun o ho => hl o (List.mem_cons_of_mem _ ho))

/-- C5, witness: double deletion of T0 from slot 0 on the two-entity fixture. -/
theorem c5_double_delete_witness :
    (∀ m, alFind entsTwo.bit_masks 0 = some m → ∃ k, m = 2 ^ k) ∧
    ((entsTwo.delete_component_by_entity_id_checked 0 0).1.delete_component_by_entity_id_checked
        0 0).1 = (entsTwo.delete_component_by_entity_id_checked 0 0).1 := by
  have hp : ∀ m, alFind entsTwo.bit_masks 0 = some m → ∃ k, m = 2 ^ k := by
    intro m hm
    have h1 : alFind entsTwo.bit_masks 0 = some 1 := by decide
    rw [h1] at hm
    obtain rfl : (1 : Nat) = m := Option.some.inj hm
    exact ⟨0, rfl⟩
  exact ⟨hp, c5_double_delete entsTwo 0 0 hp⟩

/-- C2, amended: over every sequence of create / insert / per-entity-delete /
entity-delete operations from the default store — global type deletion
(`delete_component_checked`) excluded — a set bit in a slot's bitmask for a
registered type implies the slot's cell in that type's column is non-empty.
Only this direction holds: the converse fails because the delete operations
clear bits without clearing cells (see the counterexample), and with global
type deletion in the sequence even this direction can fail through reassigned
mask-bit collisions. -/
theorem c2_mask_column_amended (ops : List Op)
    (hops : ∀ op ∈ ops, op.isDeleteType = false)
    (t m : Nat) (hm : alFind (runOps ops).bit_masks t = some m)
    (i : Nat) (hi : i < (runOps ops).map.length)
    (hbit : (runOps ops).map.getD i 0 &&& m ≠ 0) :
    ∃ col, alFind (runOps ops).components t = some col ∧ (col.getD i none).isSome := by
  have h := storeInv_runOps ops hops
  have hcs : (alFind (runOps ops).components t).isSome := by
    rw [← h.keys_eq t]
    simp [hm]
  obtain ⟨col, hcol⟩ := Option.isSome_iff_exists.mp hcs
  exact ⟨col, hcol, h.align t m col hm hcol i hi hbit⟩

/-- C2, witness: the amended statement on the two-entity fixture's operation
sequence, type 0 (mask 1), slot 0. -/
theorem c2_mask_column_witness :
    (∀ op ∈ ([.create, .insert 0 100, .insert 1 7, .create, .insert 0 50, .insert 1 8] : List Op),
      op.isDeleteType = false) ∧
    alFind (runOps [.create, .insert 0 100, .insert 1 7, .create,
      .insert 0 50, .insert 1 8]).bit_masks 0 = some 1 ∧
    0 < (runOps [.create, .insert 0 100, .insert 1 7, .create,
      .insert 0 50, .insert 1 8]).map.length ∧
    (runOps [.create, .insert 0 100, .insert 1 7, .create,
      .insert 0 50, .insert 1 8]).map.getD 0 0 &&& 1 ≠ 0 ∧
    ∃ col, alFind (runOps [.create, .insert 0 100, .insert 1 7, .create,
      .insert 0 50, .insert 1 8]).components 0 = some col ∧ (col.getD 0 none).isSome :=
  ⟨by decide, by decide, by decide, by decide,
   c2_mask_column_amended [.create, .insert 0 100, .insert 1 7, .create, .insert 0 50, .insert 1 8]
     (by decide) 0 1 (by decide) 0 (by decide) (by decide)⟩

end Secs
